import Mathlib

/-!
Verification development for the `TGForwardBot` plugin (NotifyHub_plugins).

The Python sources under `src/TGForwardBot/` (`config.py`, `utils.py`,
`bot.py`, `group.py`) are shallowly embedded below: pure helpers become Lean
functions, the stateful blocklist/topic layers become explicit state passing,
and the effectful handlers return explicit traces of outbound actions.
Python `int` is modelled by `Int`/`Nat` (unbounded), Python strings by
`String`, and regular-expression searches by explicit character-list
scanners that follow the backtracking semantics of the concrete patterns
used in the source.
-/

/-! ## Python string primitives

`pyWs` is the ASCII portion of Python's `\s` / `str.strip` whitespace class
(space, tab, newline, carriage return, vertical tab, form feed).  The
source only ever manipulates ASCII labels around these, so the Unicode
whitespace extension of Python is irrelevant here. -/

def pyWs (c : Char) : Bool :=
  c = ' ' || c = '\t' || c = '\n' || c = '\r' || c = '\x0b' || c = '\x0c'

/-- Characters of `str.strip()`: drop leading and trailing whitespace. -/
def pyStripChars (cs : List Char) : List Char :=
  ((cs.dropWhile pyWs).reverse.dropWhile pyWs).reverse

/-- Python `str.strip()` on strings. -/
def pyStrip (s : String) : String :=
  String.mk (pyStripChars s.toList)

/-- Python `str.lower()` restricted to ASCII (keyword filtering in the
source compares configured keywords case-insensitively). -/
def pyLower (s : String) : String :=
  String.mk (s.toList.map Char.toLower)

/-- Does `cs` start with `l`?  (Helper for substring containment.) -/
def leadsWith : List Char → List Char → Bool
  | [], _ => true
  | _ :: _, [] => false
  | l :: ls, c :: cs => c = l && leadsWith ls cs

/-- Does `needle` occur contiguously inside `hay`? -/
def occursIn (needle : List Char) : List Char → Bool
  | [] => needle.isEmpty
  | c :: rest => leadsWith needle (c :: rest) || occursIn needle rest

/-- Python substring containment `needle in hay`. -/
def pyContains (hay needle : String) : Bool :=
  occursIn needle.toList hay.toList

/-- Value of a digit string, as produced by Python `int` on a `\d+` match. -/
def digitsToNat (cs : List Char) : Nat :=
  cs.foldl (fun a c => a * 10 + (c.toNat - '0'.toNat)) 0

/-- Check that `lbl` occurs at the head of `cs`; on success return the rest.
This is the anchored literal part of the regex patterns below. -/
def dropLabel : List Char → List Char → Option (List Char)
  | [], cs => some cs
  | _ :: _, [] => none
  | l :: ls, c :: cs => if c = l then dropLabel ls cs else none

/-! ## Direct-mode extractors (`utils.py` lines 54-86, and the identical
`bot.py` lines 366-416)

`extract_user_id_from_message` runs `re.search(r"用户ID:\s*(\d+)", text)`.
At a given start position the pattern matches iff the literal label is
followed by a (possibly empty) whitespace run and then at least one digit;
backtracking of the greedy `\s*` can never help because `\s` and `\d` are
disjoint character classes.  `re.search` returns the leftmost position at
which the whole pattern matches. -/

def userIdLabel : List Char := "用户ID:".toList

def nameLabel : List Char := "姓名:".toList

def usernameLabel : List Char := "用户名:".toList

/-- Search loop of `re.search(r"用户ID:\s*(\d+)", _)`, returning the parsed
captured integer of the leftmost match. -/
def searchUserId : List Char → Option Nat
  | [] => none
  | c :: rest =>
    match dropLabel userIdLabel (c :: rest) with
    | some after =>
      let tail := after.dropWhile pyWs
      let ds := tail.takeWhile Char.isDigit
      if ds.isEmpty then searchUserId rest else some (digitsToNat ds)
    | none => searchUserId rest

/-- The `[^\n]+` capture: greedy run of non-newline characters. -/
def capNonNl (cs : List Char) : List Char :=
  cs.takeWhile (fun c => c ≠ '\n')

/-- Anchored match of `\s*([^\n]+)` with the regex engine's backtracking:
the greedy `\s*` first consumes as much whitespace as possible, then gives
characters back one at a time until `[^\n]+` can match at least one
character.  Returns the captured group of the first successful split. -/
def matchWsCapture : List Char → Option (List Char)
  | [] => none
  | c :: rest =>
    if pyWs c then
      match matchWsCapture rest with
      | some cap => some cap
      | none => if c ≠ '\n' then some (capNonNl (c :: rest)) else none
    else
      some (capNonNl (c :: rest))

/-- Anchored match of `\s*@?([^\n]+)` with backtracking across both the
greedy `\s*` and the greedy-optional `@?`. -/
def matchWsAtCapture : List Char → Option (List Char)
  | [] => none
  | c :: rest =>
    if pyWs c then
      match matchWsAtCapture rest with
      | some cap => some cap
      | none => if c ≠ '\n' then some (capNonNl (c :: rest)) else none
    else if c = '@' then
      match rest with
      | [] => some (capNonNl (c :: rest))
      | d :: _ => if d ≠ '\n' then some (capNonNl rest) else some (capNonNl (c :: rest))
    else
      some (capNonNl (c :: rest))

/-- Search loop of `re.search(r"姓名:\s*([^\n]+)", _)`. -/
def searchName : List Char → Option (List Char)
  | [] => none
  | c :: rest =>
    match dropLabel nameLabel (c :: rest) with
    | some after =>
      match matchWsCapture after with
      | some cap => some cap
      | none => searchName rest
    | none => searchName rest

/-- Search loop of `re.search(r"用户名:\s*@?([^\n]+)", _)`. -/
def searchUsername : List Char → Option (List Char)
  | [] => none
  | c :: rest =>
    match dropLabel usernameLabel (c :: rest) with
    | some after =>
      match matchWsAtCapture after with
      | some cap => some cap
      | none => searchUsername rest
    | none => searchUsername rest

/-- Embedding of `extract_user_id_from_message` (`utils.py` lines 54-64;
`bot.py` `_extract_user_id_from_message` is textually identical). -/
def extract_user_id_from_message (text : String) : Option Nat :=
  searchUserId text.toList

/-- Embedding of `extract_user_name_from_message` (`utils.py` lines 67-86;
`bot.py` `_extract_user_name_from_message` is textually identical): try the
name label, keep its stripped capture if non-empty, otherwise fall back to
the handle label prefixed with `@`, otherwise `none`. -/
def extract_user_name_from_message (text : String) : Option String :=
  let fallback : Option String :=
    match searchUsername text.toList with
    | some cap =>
      let username := pyStrip (String.mk cap)
      if username ≠ "" then some ("@" ++ username) else none
    | none => none
  match searchName text.toList with
  | some cap =>
    let name := pyStrip (String.mk cap)
    if name ≠ "" then some name else fallback
  | none => fallback

example : extract_user_id_from_message "用户ID: 4821\n姓名: Alice" = some 4821 := by decide
example : extract_user_name_from_message "用户ID: 4821\n姓名: Alice" = some "Alice" := by decide
example : extract_user_id_from_message "hello" = none := by decide
example : extract_user_name_from_message "hello" = none := by decide
example : extract_user_id_from_message "用户ID: abc" = none := by decide
example : extract_user_id_from_message "用户ID: x\n用户ID: 7" = some 7 := by decide
example : extract_user_id_from_message "用户ID: 12 用户ID: 99" = some 12 := by decide
example : extract_user_name_from_message "用户名: bob\n姓名:  " = some "@bob" := by decide
example : extract_user_name_from_message "用户名:   " = none := by decide

/-! ## Blocklist persistence layer (`config.py`)

`TGForwardBotConfig` keeps two in-memory caches (`_blocklist_cache`, a set
of user ids, and `_blocklist_data_cache`, the full entry list) next to the
on-disk JSON file.  The state below carries both caches and the parsed
content of the file; a file-system write that raises an I/O error is
modelled by the `writeOk` flag of the save operation.  Crucially,
`_load_blocklist_data` returns the cached list object itself, so the
in-place `append` / item mutation done by `add_to_blocklist` mutates the
cache before the save is attempted — the embedding reflects that aliasing
by threading the mutated list into the state passed to the save. -/

/-- One blocklist record `{"user_id": int, "name": str}`. -/
structure BEntry where
  user_id : Int
  name : String
  deriving DecidableEq, Repr

/-- In-memory state of `TGForwardBotConfig` relevant to the blocklist,
plus the parsed content of `blocklist.json` (`disk`). -/
structure ConfigState where
  dataCache : Option (List BEntry)
  idCache : Option (List Int)
  disk : List BEntry
  deriving DecidableEq, Repr

/-- Dedup-and-strip pass of `_save_blocklist_data` (`config.py` lines
199-209): keep the first occurrence of each `user_id`, stripping names. -/
def dedupFirst : List BEntry → List Int → List BEntry
  | [], _ => []
  | e :: rest, seen =>
    if e.user_id ∈ seen then dedupFirst rest seen
    else ⟨e.user_id, pyStrip e.name⟩ :: dedupFirst rest (e.user_id :: seen)

/-- Serialised form written by `_save_blocklist_data`: dedup by `user_id`
(first wins, names stripped) then sort ascending by `user_id` (line 212).
Ids are unique after dedup, so any stable sort is determined by the key
order; insertion sort is used as the model. -/
def canonBlocklist (data : List BEntry) : List BEntry :=
  List.insertionSort (fun a b => a.user_id ≤ b.user_id) (dedupFirst data [])

/-- Embedding of `_save_blocklist_data` (`config.py` lines 187-226).
`writeOk = false` models `open`/`json.dump` raising: the except branch
logs and returns `False` without touching the caches or the file; on
success the file and both caches are replaced by the canonical list. -/
def save_blocklist_data (st : ConfigState) (data : List BEntry) (writeOk : Bool) :
    Bool × ConfigState :=
  if writeOk then
    let u := canonBlocklist data
    (true, { dataCache := some u, idCache := some (u.map BEntry.user_id), disk := u })
  else
    (false, st)

/-- File-system operations observable from a blocklist save. -/
inductive FsOp where
  | write (path : String) (content : List BEntry)
  | rename (src dst : String)
  deriving DecidableEq, Repr

/-- File-system trace of a successful `_save_blocklist_data` run
(`config.py` lines 214-215): `open(self._blocklist_file, "w")` followed by
`json.dump` is a single whole-file write directly to the final blocklist
path — no temporary file is created and no rename is issued. -/
def save_blocklist_fs_ops (blocklistPath : String) (data : List BEntry) : List FsOp :=
  [FsOp.write blocklistPath (canonBlocklist data)]

/-- Embedding of `_load_blocklist_data` (`config.py` lines 142-185): return
the cached list if present, otherwise parse the file (modelled by `disk`;
the nested-list and malformed-data tolerance of the source concerns the
JSON decoding step, which the parsed `disk` field sits after) and cache it.
The returned list is the cache itself (Python aliasing). -/
def load_blocklist_data (st : ConfigState) : List BEntry × ConfigState :=
  match st.dataCache with
  | some d => (d, st)
  | none => (st.disk, { st with dataCache := some st.disk })

/-- Embedding of `_load_blocklist` (`config.py` lines 120-140): derive and
cache the id set from the full data. -/
def load_blocklist (st : ConfigState) : List Int × ConfigState :=
  match st.idCache with
  | some ids => (ids, st)
  | none =>
    let (d, st') := load_blocklist_data st
    let ids := (d.map BEntry.user_id).dedup
    (ids, { st' with idCache := some ids })

/-- Embedding of `is_blocked` (`config.py` lines 228-239). -/
def is_blocked (st : ConfigState) (uid : Int) : Bool × ConfigState :=
  let (ids, st') := load_blocklist st
  (ids.contains uid, st')

/-- Result of the scan loop of `add_to_blocklist` (`config.py` lines
255-262) over the (aliased) cached list. -/
inductive AddScan where
  | update (mutated : List BEntry)
  | noop
  | absent
  deriving DecidableEq, Repr

/-- The `for item in blocklist_data` loop of `add_to_blocklist`: at the
first item whose `user_id` matches, either mutate that item's name in
place (when the incoming name is non-empty and different) or stop with a
no-op; if no item matches, the id is absent. -/
def addScan (uid : Int) (name : String) : List BEntry → AddScan
  | [] => .absent
  | e :: rest =>
    if e.user_id = uid then
      if name ≠ "" ∧ e.name ≠ name then .update (⟨uid, name⟩ :: rest) else .noop
    else
      match addScan uid name rest with
      | .update l' => .update (e :: l')
      | .noop => .noop
      | .absent => .absent

/-- Embedding of `add_to_blocklist` (`config.py` lines 241-270).  Because
`blocklist_data` aliases the cache, both the in-place name mutation and the
`append` are visible in `dataCache` before the save runs; a failed save
therefore leaves the mutated list in the cache. -/
def add_to_blocklist (st : ConfigState) (uid : Int) (name : String) (writeOk : Bool) :
    Bool × ConfigState :=
  let p := load_blocklist_data st
  match addScan uid name p.1 with
  | .noop => (false, p.2)
  | .update data' => save_blocklist_data { p.2 with dataCache := some data' } data' writeOk
  | .absent =>
    let entry : BEntry := ⟨uid, if name = "" then "" else pyStrip name⟩
    let data' := p.1 ++ [entry]
    save_blocklist_data { p.2 with dataCache := some data' } data' writeOk

/-- Embedding of `remove_from_blocklist` (`config.py` lines 272-292).  The
list comprehension builds a fresh list, so the cache is not aliased into
the filtered data. -/
def remove_from_blocklist (st : ConfigState) (uid : Int) (writeOk : Bool) :
    Bool × ConfigState :=
  let p := load_blocklist_data st
  let data' := p.1.filter (fun e => e.user_id ≠ uid)
  if data'.length = p.1.length then (false, p.2)
  else save_blocklist_data p.2 data' writeOk

/-- Embedding of `get_blocklist` (`config.py` lines 294-301). -/
def get_blocklist (st : ConfigState) : List BEntry × ConfigState :=
  load_blocklist_data st

example :
    add_to_blocklist ⟨some [⟨1, "A"⟩], some [1], [⟨1, "A"⟩]⟩ 2 "B" false =
      (false, ⟨some [⟨1, "A"⟩, ⟨2, "B"⟩], some [1], [⟨1, "A"⟩]⟩) := by decide

example :
    remove_from_blocklist ⟨some [⟨1, "A"⟩], some [1], [⟨1, "A"⟩]⟩ 1 false =
      (false, ⟨some [⟨1, "A"⟩], some [1], [⟨1, "A"⟩]⟩) := by decide

example :
    add_to_blocklist ⟨some [], some [], []⟩ 1 "A " true =
      (true, ⟨some [⟨1, "A"⟩], some [1], [⟨1, "A"⟩]⟩) := by decide

example :
    (add_to_blocklist ⟨some [⟨1, "A"⟩], some [1], [⟨1, "A"⟩]⟩ 1 "A " true).1 = true := by decide

example :
    (add_to_blocklist ⟨some [⟨1, "A"⟩], some [1], [⟨1, "A"⟩]⟩ 1 "A" true).1 = false := by decide

/-! ## Blocklist pagination (`utils.py` lines 150-155 inside
`show_block_list`, and `bot.py` lines 232-243 inside `_show_block_list`)

Both renderers page the full blocklist with `items_per_page = 8`,
`total_pages = (n + 7) // 8`, a clamp of the requested page into
`[0, total_pages - 1]` and the slice `blocklist[page*8 : min(page*8+8, n)]`.
`utils.py` clamps with `max(0, min(page, total_pages - 1))`; `bot.py` uses
two `if` statements.  The empty-blocklist branch replies with a help text
and renders no page (`none` below). -/

/-- A rendered list page: the sliced items, the clamped page number and the
total page count. -/
structure PageView where
  items : List BEntry
  page : Nat
  totalPages : Nat
  deriving DecidableEq, Repr

/-- Pagination of `show_block_list` (`utils.py` lines 150-155). -/
def show_block_list_view (blocklist : List BEntry) (page : Int) : Option PageView :=
  if blocklist.isEmpty then none
  else
    let itemsPerPage : Nat := 8
    let totalPages : Nat := (blocklist.length + itemsPerPage - 1) / itemsPerPage
    let p : Nat := (max 0 (min page ((totalPages : Int) - 1))).toNat
    let startIdx := p * itemsPerPage
    let endIdx := min (startIdx + itemsPerPage) blocklist.length
    some ⟨(blocklist.drop startIdx).take (endIdx - startIdx), p, totalPages⟩

/-- Pagination of `_show_block_list` (`bot.py` lines 232-243), with the
two-step `if page < 0` / `if page >= total_pages` clamp. -/
def bot_show_block_list_view (blocklist : List BEntry) (page : Int) : Option PageView :=
  if blocklist.isEmpty then none
  else
    let itemsPerPage : Nat := 8
    let totalPages : Nat := (blocklist.length + itemsPerPage - 1) / itemsPerPage
    let p1 : Int := if page < 0 then 0 else page
    let p : Nat := (if p1 ≥ (totalPages : Int) then (totalPages : Int) - 1 else p1).toNat
    let startIdx := p * itemsPerPage
    let endIdx := min (startIdx + itemsPerPage) blocklist.length
    some ⟨(blocklist.drop startIdx).take (endIdx - startIdx), p, totalPages⟩

/-- A 17-entry blocklist (ids 1..17) used by the concrete pagination
checks. -/
def blocklist17 : List BEntry :=
  (List.range 17).map (fun i => ⟨(i : Int) + 1, ""⟩)

example : (show_block_list_view blocklist17 5).map PageView.totalPages = some 3 := by decide
example : (show_block_list_view blocklist17 5).map PageView.page = some 2 := by decide
example : (show_block_list_view blocklist17 (-1)).map PageView.page = some 0 := by decide
example : (show_block_list_view blocklist17 0).map (fun v => v.items.length) = some 8 := by decide
example : (show_block_list_view blocklist17 2).map (fun v => v.items.length) = some 1 := by decide

/-! ## Topic-mode contact ↔ sub-channel maps (`group.py`)

`TGGroupBot` keeps two Python dicts, `_user_topic_map : user -> thread` and
`_topic_user_map : thread -> user`.  They are modelled as association lists
with first-match lookup; `dict[k] = v` updates the entry in place when the
key exists and appends otherwise (insertion order semantics). -/

/-- First-match lookup, i.e. Python `dict.get`. -/
def dictGet (m : List (Int × Int)) (k : Int) : Option Int :=
  (m.find? (fun p => p.1 = k)).map (fun p => p.2)

/-- Python `dict[k] = v`. -/
def dictSet (m : List (Int × Int)) (k v : Int) : List (Int × Int) :=
  if (m.find? (fun p => p.1 = k)).isSome then
    m.map (fun p => if p.1 = k then (k, v) else p)
  else
    m ++ [(k, v)]

/-- The two topic maps of `TGGroupBot`. -/
structure TopicState where
  userTopic : List (Int × Int)
  topicUser : List (Int × Int)
  deriving DecidableEq, Repr

/-- Embedding of `_ensure_topic` (`group.py` lines 231-253).  The platform
call `create_forum_topic` is modelled by `createResult`: `some t` when the
platform creates a forum topic with thread id `t`, `none` when the call
raises.  The returned `Nat` counts the create calls issued (0 on a map
hit, 1 otherwise).  A failed create commits nothing; a successful create
writes both directions of the map (the `_save_topic_map` persistence step
mirrors the in-memory maps and is not modelled separately). -/
def ensure_topic (ts : TopicState) (uid : Int) (createResult : Option Int) :
    Option Int × TopicState × Nat :=
  match dictGet ts.userTopic uid with
  | some t => (some t, ts, 0)
  | none =>
    match createResult with
    | none => (none, ts, 1)
    | some t =>
      (some t, ⟨dictSet ts.userTopic uid t, dictSet ts.topicUser t uid⟩, 1)

/-- The thread → contact lookup performed by `_handle_group_message`
(`group.py` line 442): `self._topic_user_map.get(thread_id)`. -/
def resolve_topic_user (ts : TopicState) (threadId : Int) : Option Int :=
  dictGet ts.topicUser threadId

/-- Mutual-inverse invariant of the two topic maps, together with key
uniqueness in each direction. -/
def TopicInv (ts : TopicState) : Prop :=
  (ts.userTopic.map Prod.fst).Nodup ∧ (ts.topicUser.map Prod.fst).Nodup ∧
    ∀ u t : Int, dictGet ts.userTopic u = some t ↔ dictGet ts.topicUser t = some u

example : ensure_topic ⟨[], []⟩ 99 (some 5) = (some 5, ⟨[(99, 5)], [(5, 99)]⟩, 1) := by decide
example : resolve_topic_user ⟨[(99, 5)], [(5, 99)]⟩ 5 = some 99 := by decide
example : ensure_topic ⟨[(99, 5)], [(5, 99)]⟩ 99 (some 77) = (some 5, ⟨[(99, 5)], [(5, 99)]⟩, 0) := by
  decide

/-! ## Media forwarding (`group.py` `_forward_media_to_group` lines 372-425,
`bot.py` `_forward_media_to_manager` lines 817-876)

Both functions dispatch one of the five media kinds to the matching
platform send call.  The platform call's result is modelled by
`SendOutcome`: `badRequest` covers the `telegram.error.BadRequest` class
(which is what a privacy-restricted send raises), `otherError` any other
exception.  In the source, `_forward_media_to_group` catches `BadRequest`
and logs it (its comment: 部分媒体可能触发隐私限制，直接记录错误), and
catches any other exception and logs it; `_forward_media_to_manager`
catches every exception and logs it.  Neither function issues a second
send, so the returned trace of attempts is a singleton for every
outcome. -/

inductive MediaKind where
  | photo | document | video | audio | voice
  deriving DecidableEq, Repr

/-- One inline keyboard button (text plus either a user link or a callback
payload). -/
structure InlineBtn where
  text : String
  url : Option String
  callbackData : Option String
  deriving DecidableEq, Repr

/-- An inline keyboard: rows of buttons. -/
abbrev InlineMarkup := List (List InlineBtn)

inductive SendOutcome where
  | ok | badRequest | otherError
  deriving DecidableEq, Repr

/-- One outbound media send call as issued to the platform. -/
structure MediaSend where
  kind : MediaKind
  chatId : Int
  threadId : Option Int
  caption : Option String
  markup : Option InlineMarkup
  deriving DecidableEq, Repr

/-- Embedding of `_forward_media_to_group`: a single send attempt whose
failure (of either class) is caught and logged, with no retry and no
change to the attached keyboard. -/
def forward_media_to_group (groupChatid : Int) (kind : MediaKind) (caption : String)
    (threadId : Int) (markup : Option InlineMarkup) (outcome : SendOutcome) :
    List MediaSend :=
  let attempt : MediaSend := ⟨kind, groupChatid, some threadId, some caption, markup⟩
  match outcome with
  | .ok => [attempt]
  | .badRequest => [attempt]
  | .otherError => [attempt]

/-- Embedding of `_forward_media_to_manager`: a single send attempt; any
exception is caught and logged, with no retry. -/
def forward_media_to_manager (managerChatid : Int) (kind : MediaKind)
    (caption : Option String) (markup : Option InlineMarkup) (outcome : SendOutcome) :
    List MediaSend :=
  let attempt : MediaSend := ⟨kind, managerChatid, none, caption, markup⟩
  match outcome with
  | .ok => [attempt]
  | .badRequest => [attempt]
  | .otherError => [attempt]

/-! ## Callback-query handlers (`bot.py` `_handle_callback_query` lines
514-640, `utils.py` `handle_callback_query_common` lines 281-400)

A handler run is modelled as a pure function from the relevant event data
(whether the actor is the operator, the callback payload, the text of the
message carrying the pressed button, whether that message has a keyboard)
and the blocklist state to a list of user-visible actions plus the updated
state.  `writeOk` models the disk write of any blocklist mutation the run
performs. -/

/-- Python `int(str)` (base 10): surrounding whitespace tolerated, one
optional sign, then digits (digit-group underscores are not modelled; no
payload produced by this plugin contains them). `none` models
`ValueError`. -/
def pyIntOfStr (s : String) : Option Int :=
  match pyStripChars s.toList with
  | [] => none
  | '-' :: ds =>
    if ds ≠ [] ∧ ds.all Char.isDigit then some (-(digitsToNat ds : Int)) else none
  | '+' :: ds =>
    if ds ≠ [] ∧ ds.all Char.isDigit then some ((digitsToNat ds : Int)) else none
  | ds =>
    if ds.all Char.isDigit then some ((digitsToNat ds : Int)) else none

/-- User-visible actions of a callback-handler run. -/
inductive CbAct where
  | answer (text : Option String) (alert : Bool)
  | replyText (text : String)
  | showList (page : Int) (userId : Option Int)
  | editMarkup (pressed : String)
  | deleteMsg
  deriving DecidableEq, Repr

def permissionDeniedMsg : String := "此操作仅限管理员使用"

def alreadyBlockedMsg : String := "该用户已被封禁"

def helpText : String :=
  "可用命令：\n/start - 启动机器人\n/help - 显示帮助信息\n/status - 查看机器人状态\n/block_list - 查看封禁用户列表\n\n直接发送消息即可与管理员通信"

/-- The inline name extraction of the `block_user` branch (identical in
`bot.py` lines 541-552 and `utils.py` lines 308-319): the name label's
stripped capture if the name pattern matches (even when it strips to
empty), else the handle capture with an `@`, else empty.  The
`if original_message` / `if message_text` guards collapse to the empty
string standing for a missing message text. -/
def inline_extract_block_name (msgText : String) : String :=
  if msgText = "" then ""
  else
    match searchName msgText.toList with
    | some cap => pyStrip (String.mk cap)
    | none =>
      match searchUsername msgText.toList with
      | some cap => "@" ++ pyStrip (String.mk cap)
      | none => ""

/-- Shared `block_user:<id>` branch (textually identical in both
handlers). `ack` is the action list accumulated so far. -/
def blockUserBranch (st : ConfigState) (ack : List CbAct) (payload msgText : String)
    (hasMarkup writeOk : Bool) : List CbAct × ConfigState :=
  let idStr := payload.drop 11
  match pyIntOfStr idStr with
  | none => (ack ++ [.answer (some "无效的用户ID") true], st)
  | some uid =>
    let pb := is_blocked st uid
    if pb.1 then (ack ++ [.answer (some alreadyBlockedMsg) true], pb.2)
    else
      let userName := inline_extract_block_name msgText
      let pa := add_to_blocklist pb.2 uid userName writeOk
      if pa.1 then
        (ack ++ [.answer (some "✓ 用户已封禁") true] ++
          (if hasMarkup then [.editMarkup payload] else []), pa.2)
      else
        (ack ++ [.answer (some "✗ 封禁失败，请稍后重试") true], pa.2)

/-- Embedding of `bot.py` `_handle_callback_query`.  Note the dispatch
order: the `already_blocked` payload is acknowledged *before* the
operator check, so any actor receives the already-blocked alert for it. -/
def handle_callback_query_bot (st : ConfigState) (isMgr : Bool) (payload msgText : String)
    (hasMarkup writeOk : Bool) : List CbAct × ConfigState :=
  if payload = "already_blocked" then
    ([.answer (some alreadyBlockedMsg) true], st)
  else if !isMgr then
    ([.answer (some permissionDeniedMsg) true], st)
  else
    let ack : List CbAct := [.answer none false]
    if payload.startsWith "block_user:" then
      blockUserBranch st ack payload msgText hasMarkup writeOk
    else if payload = "show_help" then
      (ack ++ [.answer none false, .replyText helpText], st)
    else if payload.startsWith "block_list:" then
      let ack := ack ++ [.answer none false]
      let parts := payload.splitOn ":"
      if parts.length ≥ 3 ∧ parts.getD 1 "" = "page" then
        match pyIntOfStr (parts.getD 2 "") with
        | some page =>
          let pv := get_blocklist st
          (ack ++ [.showList page none], pv.2)
        | none => (ack ++ [.answer (some "处理失败，请稍后重试") true], st)
      else if parts.length ≥ 5 ∧ parts.getD 1 "" = "user" then
        match pyIntOfStr (parts.getD 2 ""), pyIntOfStr (parts.getD 4 "") with
        | some uid, some page =>
          let pv := get_blocklist st
          (ack ++ [.showList page (some uid)], pv.2)
        | _, _ => (ack ++ [.answer (some "处理失败，请稍后重试") true], st)
      else
        (ack, st)
    else if payload.startsWith "unblock_user:" then
      let parts := payload.splitOn ":"
      if parts.length ≥ 4 then
        match pyIntOfStr (parts.getD 1 ""), pyIntOfStr (parts.getD 3 "") with
        | some uid, some page =>
          let pr := remove_from_blocklist st uid writeOk
          if pr.1 then
            let pv := get_blocklist pr.2
            (ack ++ [.answer (some "✓ 用户已解除封禁") true, .showList page none], pv.2)
          else
            (ack ++ [.answer (some "✗ 解除封禁失败") true], pr.2)
        | _, _ => (ack ++ [.answer (some "处理失败，请稍后重试") true], st)
      else
        (ack, st)
    else if payload = "close_block_list" then
      (ack ++ [.answer none false, .deleteMsg], st)
    else
      (ack, st)

/-- Embedding of `utils.py` `handle_callback_query_common` (used by the
group mode).  Here the operator check comes first, so every payload from a
non-operator — `already_blocked` included — gets the permission-denied
answer.  Unlike `bot.py`, the dispatch branches do not answer a second
time, and a parse error escapes to an outer handler that only logs. -/
def handle_callback_query_common (st : ConfigState) (isMgr : Bool) (payload msgText : String)
    (hasMarkup writeOk : Bool) : List CbAct × ConfigState :=
  if !isMgr then
    ([.answer (some permissionDeniedMsg) true], st)
  else if payload = "already_blocked" then
    ([.answer (some alreadyBlockedMsg) true], st)
  else
    let ack : List CbAct := [.answer none false]
    if payload.startsWith "block_user:" then
      blockUserBranch st ack payload msgText hasMarkup writeOk
    else if payload = "show_help" then
      (ack ++ [.replyText helpText], st)
    else if payload.startsWith "block_list:" then
      let parts := payload.splitOn ":"
      if parts.length ≥ 3 ∧ parts.getD 1 "" = "page" then
        match pyIntOfStr (parts.getD 2 "") with
        | some page =>
          let pv := get_blocklist st
          (ack ++ [.showList page none], pv.2)
        | none => (ack, st)
      else if parts.length ≥ 5 ∧ parts.getD 1 "" = "user" then
        match pyIntOfStr (parts.getD 2 ""), pyIntOfStr (parts.getD 4 "") with
        | some uid, some page =>
          let pv := get_blocklist st
          (ack ++ [.showList page (some uid)], pv.2)
        | _, _ => (ack, st)
      else
        (ack, st)
    else if payload.startsWith "unblock_user:" then
      let parts := payload.splitOn ":"
      if parts.length ≥ 4 then
        match pyIntOfStr (parts.getD 1 ""), pyIntOfStr (parts.getD 3 "") with
        | some uid, some page =>
          let pr := remove_from_blocklist st uid writeOk
          if pr.1 then
            let pv := get_blocklist pr.2
            (ack ++ [.answer (some "✓ 用户已解除封禁") true, .showList page none], pv.2)
          else
            (ack ++ [.answer (some "✗ 解除封禁失败") true], pr.2)
        | _, _ => (ack, st)
      else
        (ack, st)
    else if payload = "close_block_list" then
      (ack ++ [.deleteMsg], st)
    else
      (ack, st)

example :
    (handle_callback_query_bot ⟨some [], some [], []⟩ false "already_blocked" "" false true).1 =
      [.answer (some alreadyBlockedMsg) true] := by decide

example :
    (handle_callback_query_common ⟨some [], some [], []⟩ false "already_blocked" "" false true).1 =
      [.answer (some permissionDeniedMsg) true] := by decide

/-! ## Inbound message handlers (`bot.py` `_handle_message` lines 642-703
and `_handle_media` lines 705-800; `group.py` `_handle_user_text` lines
255-291 and `_handle_user_media` lines 337-370)

Each handler run is a pure function to a trace of user-visible effects
plus the updated blocklist (and, in topic mode, topic-map) state. -/

/-- The sender fields used by the handlers; the empty string models a
missing (`None`) field, matching Python truthiness under `or`. -/
structure TgUser where
  firstName : String
  lastName : String
  username : String
  deriving DecidableEq, Repr

/-- Embedding of `_contains_block_keywords` (`bot.py` lines 321-347;
`utils.py` `contains_block_keywords` lines 28-40 is the same logic):
`none` models a `block_keywords` configuration that is absent. -/
def containsBlockKeywords (kws : Option (List String)) (text : String) : Bool :=
  if text = "" then false
  else
    match kws with
    | none => false
    | some ks => ks.any (fun k => pyContains (pyLower text) (pyLower k))

/-- The metadata block appended to every relayed message
(`_build_user_info` in `group.py` lines 221-229; `bot.py` builds the same
text inline in `_handle_message` / `_handle_media`). -/
def buildUserInfo (chatId : Int) (user : TgUser) : String :=
  let base := "\n\n" ++ String.mk (List.replicate 25 '=') ++ "\n用户ID: " ++ toString chatId
  let base :=
    if user.firstName ≠ "" ∨ user.lastName ≠ "" then
      base ++ "\n姓名: " ++ pyStrip (user.firstName ++ " " ++ user.lastName)
    else base
  if user.username ≠ "" then base ++ "\n用户名: @" ++ user.username else base

/-- Display name used for the user-link button in direct mode (`bot.py`
lines 667-674). -/
def userButtonName (chatId : Int) (user : TgUser) : String :=
  if user.firstName ≠ "" then
    if user.lastName ≠ "" then user.firstName ++ " " ++ user.lastName else user.firstName
  else if user.username ≠ "" then "@" ++ user.username
  else "用户 " ++ toString chatId

/-- Chinese label of a media kind (`bot.py` lines 725-747). -/
def mediaTypeName : Option MediaKind → String
  | some .photo => "图片"
  | some .document => "文档"
  | some .video => "视频"
  | some .audio => "音频"
  | some .voice => "语音"
  | none => "未知类型"

/-- User-visible effects of an inbound-message handler run. -/
inductive Effect where
  | routeManagerReply
  | notifyManager (text : String) (markup : Option InlineMarkup)
  | sendToThread (chatId threadId : Int) (text : String) (markup : Option InlineMarkup)
  | send (s : MediaSend)
  | replySender (text : String)
  | scheduleDelete
  deriving DecidableEq, Repr

/-- The two-row keyboard attached in direct mode: a user-link button and
the block button. -/
def directKeyboard (chatId : Int) (user : TgUser) : InlineMarkup :=
  [[⟨userButtonName chatId user, some ("tg://user?id=" ++ toString chatId), none⟩],
   [⟨"🚫 封禁用户", none, some ("block_user:" ++ toString chatId)⟩]]

/-- The single-row keyboard attached in topic mode: just the block
button. -/
def groupKeyboard (chatId : Int) : InlineMarkup :=
  [[⟨"🚫 封禁用户", none, some ("block_user:" ++ toString chatId)⟩]]

/-- Embedding of `bot.py` `_handle_message`: operator messages are routed
to the operator-reply path; blocked senders and keyword hits are dropped
with no effect at all; otherwise the text plus metadata block goes to the
operator with the direct-mode keyboard, and the sender gets an ephemeral
acknowledgement scheduled for deletion. -/
def handle_message (st : ConfigState) (kws : Option (List String)) (isMgr : Bool)
    (chatId : Int) (user : TgUser) (text : String) : List Effect × ConfigState :=
  if isMgr then ([.routeManagerReply], st)
  else
    let pb := is_blocked st chatId
    if pb.1 then ([], pb.2)
    else if containsBlockKeywords kws text then ([], pb.2)
    else
      ([.notifyManager (text ++ buildUserInfo chatId user) (some (directKeyboard chatId user)),
        .replySender "消息已收到！(10s后自动销毁)", .scheduleDelete], pb.2)

/-- Embedding of `bot.py` `_handle_media`.  `kind = none` models a message
matched by the media filter but with no recognised payload field (the
source then skips the forward call but still acknowledges).  `outcome` is
the platform's response to the single forward attempt. -/
def handle_media (st : ConfigState) (kws : Option (List String)) (managerChatid : Int)
    (isMgr hasReplyTo : Bool) (chatId : Int) (user : TgUser) (kind : Option MediaKind)
    (caption : String) (outcome : SendOutcome) : List Effect × ConfigState :=
  if isMgr then
    (if hasReplyTo then [.routeManagerReply] else [], st)
  else
    let pb := is_blocked st chatId
    if pb.1 then ([], pb.2)
    else if containsBlockKeywords kws caption then ([], pb.2)
    else
      let info := buildUserInfo chatId user
      let capToSend :=
        if caption ≠ "" then caption ++ info
        else "收到来自用户的" ++ mediaTypeName kind ++ info
      let sends :=
        match kind with
        | some k =>
          (forward_media_to_manager managerChatid k (some capToSend)
            (some (directKeyboard chatId user)) outcome).map Effect.send
        | none => []
      (sends ++ [.replySender (mediaTypeName kind ++ "已收到！(10s后自动销毁)"),
        .scheduleDelete], pb.2)

/-- Embedding of `group.py` `_handle_user_text`: no operator check (every
private text lands here); blocked senders and keyword hits are dropped
silently; otherwise the contact's topic is ensured (created on first
miss), the text plus metadata goes to that topic with the block-button
keyboard, and the sender gets an ephemeral acknowledgement. -/
def handle_user_text (st : ConfigState) (ts : TopicState) (kws : Option (List String))
    (groupChatid chatId : Int) (user : TgUser) (text : String)
    (createResult : Option Int) : List Effect × ConfigState × TopicState :=
  let pb := is_blocked st chatId
  if pb.1 then ([], pb.2, ts)
  else if containsBlockKeywords kws text then ([], pb.2, ts)
  else
    let er := ensure_topic ts chatId createResult
    match er.1 with
    | none => ([.replySender "创建话题失败，请稍后重试。"], pb.2, er.2.1)
    | some threadId =>
      ([.sendToThread groupChatid threadId (text ++ buildUserInfo chatId user)
          (some (groupKeyboard chatId)),
        .replySender "消息已转发至管理员话题。(10s后自动销毁)", .scheduleDelete],
       pb.2, er.2.1)

/-- Embedding of `group.py` `_handle_user_media`: same silent-drop guard on
the caption, then topic ensure and a single media forward to the topic. -/
def handle_user_media (st : ConfigState) (ts : TopicState) (kws : Option (List String))
    (groupChatid chatId : Int) (user : TgUser) (kind : Option MediaKind) (caption : String)
    (createResult : Option Int) (outcome : SendOutcome) :
    List Effect × ConfigState × TopicState :=
  let pb := is_blocked st chatId
  if pb.1 then ([], pb.2, ts)
  else if containsBlockKeywords kws caption then ([], pb.2, ts)
  else
    let er := ensure_topic ts chatId createResult
    match er.1 with
    | none => ([.replySender "创建话题失败，请稍后重试。"], pb.2, er.2.1)
    | some threadId =>
      let info := buildUserInfo chatId user
      let capToSend := if caption ≠ "" then caption ++ info else "收到媒体消息" ++ info
      let sends :=
        match kind with
        | some k =>
          (forward_media_to_group groupChatid k capToSend threadId
            (some (groupKeyboard chatId)) outcome).map Effect.send
        | none => []
      (sends ++ [.replySender "媒体已转发至管理员话题。(10s后自动销毁)", .scheduleDelete],
       pb.2, er.2.1)

example :
    (handle_message ⟨some [⟨7, ""⟩], some [7], [⟨7, ""⟩]⟩ none false 7 ⟨"", "", ""⟩ "hi").1 =
      [] := by decide

example :
    (handle_user_text ⟨some [], some [], []⟩ ⟨[], []⟩ (some ["spam"]) 100 7 ⟨"", "", ""⟩
      "buy SPAM now" (some 5)).1 = [] := by decide

/-! ## Supporting lemmas for the extractor theorems -/

lemma dropLabel_eq_none_of_leadsWith {l cs : List Char} (h : leadsWith l cs = false) :
    dropLabel l cs = none := by
  induction l generalizing cs with
  | nil => simp [leadsWith] at h
  | cons a ls ih =>
    cases cs with
    | nil => rfl
    | cons c cs' =>
      simp only [leadsWith, Bool.and_eq_false_iff, decide_eq_false_iff_not] at h
      simp only [dropLabel]
      rcases h with h | h
      · rw [if_neg h]
      · by_cases hc : c = a
        · rw [if_pos hc]; exact ih h
        · rw [if_neg hc]

lemma searchUserId_eq_none {cs : List Char} (h : occursIn userIdLabel cs = false) :
    searchUserId cs = none := by
  induction cs with
  | nil => rfl
  | cons c rest ih =>
    simp only [occursIn, Bool.or_eq_false_iff] at h
    simp only [searchUserId, dropLabel_eq_none_of_leadsWith h.1]
    exact ih h.2

lemma searchName_eq_none {cs : List Char} (h : occursIn nameLabel cs = false) :
    searchName cs = none := by
  induction cs with
  | nil => rfl
  | cons c rest ih =>
    simp only [occursIn, Bool.or_eq_false_iff] at h
    simp only [searchName, dropLabel_eq_none_of_leadsWith h.1]
    exact ih h.2

lemma searchUsername_eq_none {cs : List Char} (h : occursIn usernameLabel cs = false) :
    searchUsername cs = none := by
  induction cs with
  | nil => rfl
  | cons c rest ih =>
    simp only [occursIn, Bool.or_eq_false_iff] at h
    simp only [searchUsername, dropLabel_eq_none_of_leadsWith h.1]
    exact ih h.2

lemma at_append_ne_empty (u : String) : ("@" ++ u) ≠ "" := by
  intro h
  have hd : ("@" ++ u).data = ("" : String).data := by rw [h]
  simp [String.data_append] at hd

/-- Claim C9: direct-mode extraction.  The id extractor returns the parsed
integer of the leftmost occurrence of the id label followed by digits
(`extract_user_id_from_message "用户ID: 4821\n姓名: Alice" = some 4821`,
first occurrence wins, a label with no digits is malformed and skipped),
and `none` whenever the label does not occur; the display-name extractor
yields the name label's value when present and non-empty
(`some "Alice"` on the same text) and `none` when neither the name label
nor the handle label occurs. -/
theorem C9_direct_mode_extraction :
    extract_user_id_from_message "用户ID: 4821\n姓名: Alice" = some 4821 ∧
    extract_user_name_from_message "用户ID: 4821\n姓名: Alice" = some "Alice" ∧
    extract_user_id_from_message "用户ID: abc" = none ∧
    extract_user_id_from_message "用户ID: 12 用户ID: 99" = some 12 ∧
    (∀ s : String, pyContains s "用户ID:" = false →
      extract_user_id_from_message s = none) ∧
    (∀ s : String, pyContains s "姓名:" = false → pyContains s "用户名:" = false →
      extract_user_name_from_message s = none) := by
  refine ⟨by decide, by decide, by decide, by decide, ?_, ?_⟩
  · intro s h
    exact searchUserId_eq_none h
  · intro s h1 h2
    unfold extract_user_name_from_message
    rw [searchName_eq_none h1, searchUsername_eq_none h2]

/-- Witness for C9: concrete text carrying neither label yields `none`
for both extractors. -/
theorem C9_witness :
    extract_user_id_from_message "hello" = none ∧
    extract_user_name_from_message "hello" = none :=
  ⟨C9_direct_mode_extraction.2.2.2.2.1 "hello" (by decide),
   C9_direct_mode_extraction.2.2.2.2.2 "hello" (by decide) (by decide)⟩

/-- Claim C10: the display-name extractor never returns the empty string —
every result is `none` or non-empty.  A name label whose captured value
strips to whitespace-only is skipped in favour of the handle label, and a
handle label whose value is whitespace-only yields `none`. -/
theorem C10_name_never_empty :
    (∀ s : String, extract_user_name_from_message s ≠ some "") ∧
    extract_user_name_from_message "用户名: bob\n姓名:  " = some "@bob" ∧
    extract_user_name_from_message "姓名:   " = none ∧
    extract_user_name_from_message "用户名:   " = none := by
  refine ⟨?_, by decide, by decide, by decide⟩
  intro s
  unfold extract_user_name_from_message
  cases hn : searchName s.toList with
  | some cap =>
    simp only []
    by_cases h1 : pyStrip (String.mk cap) ≠ ""
    · simp only [if_pos h1]
      intro hcontra
      exact h1 (Option.some.inj hcontra)
    · simp only [if_neg h1]
      cases hu : searchUsername s.toList with
      | some cap' =>
        by_cases h2 : pyStrip (String.mk cap') ≠ ""
        · simp only [if_pos h2]
          intro hcontra
          exact at_append_ne_empty _ (Option.some.inj hcontra)
        · simp only [if_neg h2]
          exact Option.noConfusion
      | none => exact Option.noConfusion
  | none =>
    simp only []
    cases hu : searchUsername s.toList with
    | some cap' =>
      by_cases h2 : pyStrip (String.mk cap') ≠ ""
      · simp only [if_pos h2]
        intro hcontra
        exact at_append_ne_empty _ (Option.some.inj hcontra)
      · simp only [if_neg h2]
        exact Option.noConfusion
    | none => exact Option.noConfusion

/-- Witness for C10: the universal part applied at a concrete text. -/
theorem C10_witness : extract_user_name_from_message "姓名: x" ≠ some "" :=
  C10_name_never_empty.1 "姓名: x"

/-- Counterexample to claim C2: a privacy-restricted (`BadRequest`)
failure of a media forward produces exactly one send attempt — the claimed
retry with a downgraded button set never happens, in either the topic-mode
forwarder or the direct-mode forwarder. -/
theorem C2_counterexample :
    forward_media_to_group 100 .photo "c" 5 (some (groupKeyboard 7)) .badRequest =
      [⟨.photo, 100, some 5, some "c", some (groupKeyboard 7)⟩] ∧
    (forward_media_to_group 100 .photo "c" 5 (some (groupKeyboard 7)) .badRequest).length ≠ 2 ∧
    forward_media_to_manager 200 .document (some "d")
        (some (directKeyboard 7 ⟨"A", "", "u"⟩)) .badRequest =
      [⟨.document, 200, none, some "d", some (directKeyboard 7 ⟨"A", "", "u"⟩)⟩] ∧
    (forward_media_to_manager 200 .document (some "d")
        (some (directKeyboard 7 ⟨"A", "", "u"⟩)) .badRequest).length ≠ 2 := by
  refine ⟨rfl, by decide, rfl, by decide⟩

/-- Claim C2 as amended: for every media kind, destination and failure
class (privacy-restricted `BadRequest` included), the media forwarders
issue exactly one send attempt, carrying the original unmodified button
set; the failure is caught and logged and no retry is issued. -/
theorem C2_no_retry_single_attempt :
    ∀ (groupChatid managerChatid : Int) (kind : MediaKind) (caption : String)
      (capOpt : Option String) (threadId : Int) (markup : Option InlineMarkup)
      (outcome : SendOutcome),
    forward_media_to_group groupChatid kind caption threadId markup outcome =
      [⟨kind, groupChatid, some threadId, some caption, markup⟩] ∧
    forward_media_to_manager managerChatid kind capOpt markup outcome =
      [⟨kind, managerChatid, none, capOpt, markup⟩] := by
  intro g m kind caption capOpt threadId markup outcome
  cases outcome <;> exact ⟨rfl, rfl⟩

/-- Counterexample to claim C3: a save of the blocklist is a single
whole-file write directly to the final blocklist path — its file-system
trace contains a direct write of the serialised collection and no rename,
contradicting the claimed write-to-temp-then-rename pattern. -/
theorem C3_counterexample :
    save_blocklist_fs_ops "conf/TGForwardBot/blocklist.json" [⟨1, "A"⟩] =
      [FsOp.write "conf/TGForwardBot/blocklist.json" [⟨1, "A"⟩]] ∧
    FsOp.write "conf/TGForwardBot/blocklist.json" [⟨1, "A"⟩] ∈
      save_blocklist_fs_ops "conf/TGForwardBot/blocklist.json" [⟨1, "A"⟩] := by
  refine ⟨by decide, by decide⟩

/-- Claim C3 as amended: every save of the blocklist performs exactly one
file-system operation, a whole-file write of the canonical serialised
collection directly into the final blocklist file (the very content that
becomes the new on-disk state); no temporary file and no rename is
involved. -/
theorem C3_direct_whole_file_write :
    ∀ (path : String) (st : ConfigState) (data : List BEntry),
    save_blocklist_fs_ops path data =
      [FsOp.write path ((save_blocklist_data st data true).2.disk)] ∧
    (save_blocklist_fs_ops path data).length = 1 := by
  intro path st data
  exact ⟨rfl, rfl⟩

/-- Counterexample to claim C4: in the private-mode handler, a
button-press by a non-operator with payload `already_blocked` is answered
with the already-blocked alert, not with the permission-denied
acknowledgement the claim requires for every payload. -/
theorem C4_counterexample :
    handle_callback_query_bot ⟨some [], some [], []⟩ false "already_blocked" "" false true =
      ([CbAct.answer (some alreadyBlockedMsg) true], ⟨some [], some [], []⟩) ∧
    CbAct.answer (some permissionDeniedMsg) true ∉
      (handle_callback_query_bot ⟨some [], some [], []⟩ false "already_blocked" "" false
        true).1 := by
  refine ⟨by decide, by decide⟩

/-- Claim C4 as amended: a button-press whose actor is not the operator
causes no state change and renders, edits or deletes nothing, for every
payload and in both handlers; the group-mode (common) handler answers
every such press with the permission-denied acknowledgement, while the
private-mode handler answers the `already_blocked` payload with the
already-blocked alert (its dispatch checks that payload before the
operator gate) and every other payload with the permission-denied
acknowledgement. -/
theorem C4_non_operator_no_state_change :
    ∀ (st : ConfigState) (payload msgText : String) (hasMarkup writeOk : Bool),
    handle_callback_query_common st false payload msgText hasMarkup writeOk =
      ([CbAct.answer (some permissionDeniedMsg) true], st) ∧
    handle_callback_query_bot st false payload msgText hasMarkup writeOk =
      (if payload = "already_blocked" then
        ([CbAct.answer (some alreadyBlockedMsg) true], st)
      else
        ([CbAct.answer (some permissionDeniedMsg) true], st)) := by
  intro st payload msgText hasMarkup writeOk
  constructor
  · simp [handle_callback_query_common]
  · by_cases h : payload = "already_blocked"
    · simp [handle_callback_query_bot, h]
    · simp [handle_callback_query_bot, h]

/-- Claim C7: an inbound contact message from a blocked sender, or whose
text (respectively media caption) contains a configured keyword as a
case-insensitive substring, produces no effect at all — no outbound call
to the operator destination and no reply or acknowledgement to the sender
— in all four inbound handlers (direct-mode text and media, topic-mode
text and media). -/
theorem C7_blocked_or_keyword_silent_drop :
    ∀ (st : ConfigState) (ts : TopicState) (kws : Option (List String))
      (managerChatid groupChatid chatId : Int) (user : TgUser) (text caption : String)
      (hasReplyTo : Bool) (kind : Option MediaKind) (createResult : Option Int)
      (outcome : SendOutcome),
    ((is_blocked st chatId).1 = true ∨ containsBlockKeywords kws text = true →
      (handle_message st kws false chatId user text).1 = [] ∧
      (handle_user_text st ts kws groupChatid chatId user text createResult).1 = []) ∧
    ((is_blocked st chatId).1 = true ∨ containsBlockKeywords kws caption = true →
      (handle_media st kws managerChatid false hasReplyTo chatId user kind caption
        outcome).1 = [] ∧
      (handle_user_media st ts kws groupChatid chatId user kind caption createResult
        outcome).1 = []) := by
  intro st ts kws mc gc chatId user text caption hasReplyTo kind createResult outcome
  constructor
  · rintro (h | h)
    · constructor <;> simp [handle_message, handle_user_text, h]
    · cases hb : (is_blocked st chatId).1 <;>
        constructor <;> simp [handle_message, handle_user_text, hb, h]
  · rintro (h | h)
    · constructor <;> simp [handle_media, handle_user_media, h]
    · cases hb : (is_blocked st chatId).1 <;>
        constructor <;> simp [handle_media, handle_user_media, hb, h]

/-- Witness for C7: a sender on the blocklist is dropped with no effects
by all four handlers. -/
theorem C7_witness :
    (handle_message ⟨some [⟨7, ""⟩], some [7], [⟨7, ""⟩]⟩ none false 7 ⟨"", "", ""⟩ "hi").1 =
      [] ∧
    (handle_user_text ⟨some [⟨7, ""⟩], some [7], [⟨7, ""⟩]⟩ ⟨[], []⟩ none 100 7 ⟨"", "", ""⟩
      "hi" (some 5)).1 = [] ∧
    (handle_media ⟨some [⟨7, ""⟩], some [7], [⟨7, ""⟩]⟩ none 200 false false 7 ⟨"", "", ""⟩
      (some .photo) "cap" .ok).1 = [] ∧
    (handle_user_media ⟨some [⟨7, ""⟩], some [7], [⟨7, ""⟩]⟩ ⟨[], []⟩ none 100 7 ⟨"", "", ""⟩
      (some .photo) "cap" (some 5) .ok).1 = [] := by
  have h := C7_blocked_or_keyword_silent_drop ⟨some [⟨7, ""⟩], some [7], [⟨7, ""⟩]⟩ ⟨[], []⟩
    none 200 100 7 ⟨"", "", ""⟩ "hi" "cap" false (some .photo) (some 5) .ok
  have h1 := h.1 (Or.inl (by decide))
  have h2 := h.2 (Or.inl (by decide))
  exact ⟨h1.1, h1.2, h2.1, h2.2⟩

/-! ## Supporting lemmas for pagination -/

lemma clampInt_eq (page : Int) (T : Nat) (hT : 1 ≤ T) :
    (if (if page < 0 then 0 else page) ≥ (T : Int) then (T : Int) - 1
     else if page < 0 then 0 else page) = max 0 (min page ((T : Int) - 1)) := by
  have h : (1 : Int) ≤ (T : Int) := by exact_mod_cast hT
  split_ifs <;> omega

lemma take_slice_eq (l : List BEntry) (s : Nat) :
    (l.drop s).take (min (s + 8) l.length - s) = (l.drop s).take 8 := by
  rcases le_or_lt (s + 8) l.length with h | h
  · have h8 : min (s + 8) l.length - s = 8 := by omega
    rw [h8]
  · have hm : min (s + 8) l.length - s = l.length - s := by omega
    rw [hm, List.take_eq_take]
    simp only [List.length_drop]
    omega

lemma show_view_eq (bl : List BEntry) (page : Int) (hne : bl ≠ []) :
    show_block_list_view bl page =
      some ⟨(bl.drop ((max 0 (min page ((((bl.length + 7) / 8 : Nat) : Int) - 1))).toNat * 8)).take 8,
            (max 0 (min page ((((bl.length + 7) / 8 : Nat) : Int) - 1))).toNat,
            (bl.length + 7) / 8⟩ := by
  have hempty : bl.isEmpty = false := by
    cases bl with
    | nil => exact absurd rfl hne
    | cons a l => rfl
  have hT : (bl.length + 8 - 1) / 8 = (bl.length + 7) / 8 := by omega
  simp only [show_block_list_view, hempty, Bool.false_eq_true, if_false, hT, take_slice_eq]

lemma bot_view_eq (bl : List BEntry) (page : Int) (hne : bl ≠ []) :
    bot_show_block_list_view bl page = show_block_list_view bl page := by
  have hempty : bl.isEmpty = false := by
    cases bl with
    | nil => exact absurd rfl hne
    | cons a l => rfl
  have hT : (bl.length + 8 - 1) / 8 = (bl.length + 7) / 8 := by omega
  have hT1 : 1 ≤ (bl.length + 7) / 8 := by
    have := List.length_pos.mpr hne
    omega
  rw [show_view_eq bl page hne]
  simp only [bot_show_block_list_view, hempty, Bool.false_eq_true, if_false, hT,
    take_slice_eq, clampInt_eq page _ hT1]

/-- Claim C8: for every non-empty blocklist and requested page, both list
renderers agree, use `items_per_page = 8`, compute
`total_pages = ceil(n/8)` (characterised by the two inequalities), clamp
the requested page into `[0, total_pages - 1]`, and show exactly the slice
starting at index `8 * page` of length at most 8; in particular 17 entries
give 3 pages, requested page 5 clamps to 2, and requested page -1 clamps
to 0. -/
theorem C8_pagination :
    (∀ (bl : List BEntry) (page : Int), bl ≠ [] →
      bot_show_block_list_view bl page = show_block_list_view bl page ∧
      (show_block_list_view bl page).map PageView.totalPages =
        some ((bl.length + 7) / 8) ∧
      (show_block_list_view bl page).map PageView.page =
        some ((max 0 (min page ((((bl.length + 7) / 8 : Nat) : Int) - 1))).toNat) ∧
      (show_block_list_view bl page).map PageView.items =
        some ((bl.drop
          ((max 0 (min page ((((bl.length + 7) / 8 : Nat) : Int) - 1))).toNat * 8)).take 8) ∧
      bl.length ≤ 8 * ((bl.length + 7) / 8) ∧
      8 * ((bl.length + 7) / 8 - 1) < bl.length) ∧
    (show_block_list_view blocklist17 5).map PageView.totalPages = some 3 ∧
    (show_block_list_view blocklist17 5).map PageView.page = some 2 ∧
    (show_block_list_view blocklist17 (-1)).map PageView.page = some 0 := by
  refine ⟨?_, by decide, by decide, by decide⟩
  intro bl page hne
  have hlen := List.length_pos.mpr hne
  refine ⟨bot_view_eq bl page hne, ?_, ?_, ?_, by omega, by omega⟩ <;>
    rw [show_view_eq bl page hne] <;> rfl

/-- Witness for C8: the general pagination law applied to the concrete
17-entry blocklist at requested page 5. -/
theorem C8_witness :
    bot_show_block_list_view blocklist17 5 = show_block_list_view blocklist17 5 ∧
    (show_block_list_view blocklist17 5).map PageView.totalPages =
      some ((blocklist17.length + 7) / 8) :=
  ⟨(C8_pagination.1 blocklist17 5 (by decide)).1,
   (C8_pagination.1 blocklist17 5 (by decide)).2.1⟩

/-- Counterexample to claim C1: with the cache loaded, a failed disk write
during `add_to_blocklist` returns false but leaves the appended entry in
the full-entry data cache — the in-memory cache is not as it was before
the call (it is now desynced from disk). -/
theorem C1_counterexample :
    (add_to_blocklist ⟨some [⟨1, "A"⟩], some [1], [⟨1, "A"⟩]⟩ 2 "B" false).1 = false ∧
    (add_to_blocklist ⟨some [⟨1, "A"⟩], some [1], [⟨1, "A"⟩]⟩ 2 "B" false).2.dataCache =
      some [⟨1, "A"⟩, ⟨2, "B"⟩] ∧
    (add_to_blocklist ⟨some [⟨1, "A"⟩], some [1], [⟨1, "A"⟩]⟩ 2 "B" false).2 ≠
      ⟨some [⟨1, "A"⟩], some [1], [⟨1, "A"⟩]⟩ := by
  refine ⟨by decide, by decide, by decide⟩

/-- Claim C1 as amended: when the file write fails, both mutators return
false; `remove_from_blocklist` leaves the whole state (both caches and the
file) exactly as it was, while `add_to_blocklist` leaves the id-set cache
and the file unchanged but can retain its in-place mutation (appended
entry or renamed entry) in the full-entry data cache, because the cached
list is aliased into the mutation. -/
theorem C1_failed_write_state :
    ∀ (st : ConfigState) (l : List BEntry) (uid : Int) (name : String),
    st.dataCache = some l →
    remove_from_blocklist st uid false = (false, st) ∧
    (add_to_blocklist st uid name false).1 = false ∧
    (add_to_blocklist st uid name false).2.idCache = st.idCache ∧
    (add_to_blocklist st uid name false).2.disk = st.disk := by
  intro st l uid name hc
  constructor
  · simp [remove_from_blocklist, load_blocklist_data, hc, save_blocklist_data]
  · cases h : addScan uid name l <;>
      simp [add_to_blocklist, load_blocklist_data, hc, h, save_blocklist_data]

/-- Witness for C1: the amended law applied at a concrete loaded state. -/
theorem C1_witness :
    remove_from_blocklist ⟨some [⟨1, "A"⟩], some [1], [⟨1, "A"⟩]⟩ 1 false =
      (false, ⟨some [⟨1, "A"⟩], some [1], [⟨1, "A"⟩]⟩) ∧
    (add_to_blocklist ⟨some [⟨1, "A"⟩], some [1], [⟨1, "A"⟩]⟩ 2 "B" false).1 = false :=
  ⟨(C1_failed_write_state ⟨some [⟨1, "A"⟩], some [1], [⟨1, "A"⟩]⟩ [⟨1, "A"⟩] 1 "B" rfl).1,
   (C1_failed_write_state ⟨some [⟨1, "A"⟩], some [1], [⟨1, "A"⟩]⟩ [⟨1, "A"⟩] 2 "B" rfl).2.1⟩

/-! ## Supporting lemmas for the topic maps -/

lemma dictGet_nil (k : Int) : dictGet [] k = none := rfl

lemma dictGet_cons (p : Int × Int) (m : List (Int × Int)) (k : Int) :
    dictGet (p :: m) k = if p.1 = k then some p.2 else dictGet m k := by
  unfold dictGet
  by_cases hp : p.1 = k
  · rw [List.find?_cons_of_pos _ (by simpa using hp), if_pos hp]
    rfl
  · rw [List.find?_cons_of_neg _ (by simpa using hp), if_neg hp]

lemma dictGet_eq_none_iff (m : List (Int × Int)) (k : Int) :
    dictGet m k = none ↔ k ∉ m.map Prod.fst := by
  induction m with
  | nil => simp [dictGet_nil]
  | cons p m ih =>
    rw [dictGet_cons]
    by_cases hp : p.1 = k
    · simp [hp]
    · rw [if_neg hp, ih]
      simp only [List.map_cons, List.mem_cons]
      constructor
      · intro h hor
        rcases hor with hor | hor
        · exact hp hor.symm
        · exact h hor
      · intro h hmem
        exact h (Or.inr hmem)

lemma dictGet_append_self {m : List (Int × Int)} {k v : Int} (h : dictGet m k = none) :
    dictGet (m ++ [(k, v)]) k = some v := by
  induction m with
  | nil =>
    rw [List.nil_append, dictGet_cons]
    simp
  | cons p m ih =>
    rw [dictGet_cons] at h
    by_cases hp : p.1 = k
    · rw [if_pos hp] at h
      exact Option.noConfusion h
    · rw [if_neg hp] at h
      rw [List.cons_append, dictGet_cons, if_neg hp]
      exact ih h

lemma dictGet_append_other {m : List (Int × Int)} {k v k' : Int} (hk : k' ≠ k) :
    dictGet (m ++ [(k, v)]) k' = dictGet m k' := by
  induction m with
  | nil =>
    rw [List.nil_append, dictGet_cons, if_neg (fun h => hk h.symm)]
  | cons p m ih =>
    rw [List.cons_append, dictGet_cons, dictGet_cons]
    by_cases hp : p.1 = k'
    · rw [if_pos hp, if_pos hp]
    · rw [if_neg hp, if_neg hp]
      exact ih

lemma dictSet_of_none {m : List (Int × Int)} {k v : Int} (h : dictGet m k = none) :
    dictSet m k v = m ++ [(k, v)] := by
  have hf : m.find? (fun p => p.1 = k) = none := by
    unfold dictGet at h
    exact Option.map_eq_none'.mp h
  unfold dictSet
  rw [hf]
  rfl

lemma topicInv_insert {ts : TopicState} {u t : Int} (hInv : TopicInv ts)
    (hu : dictGet ts.userTopic u = none) (ht : dictGet ts.topicUser t = none) :
    TopicInv ⟨ts.userTopic ++ [(u, t)], ts.topicUser ++ [(t, u)]⟩ := by
  obtain ⟨hn1, hn2, hiff⟩ := hInv
  refine ⟨?_, ?_, ?_⟩
  · simp only [List.map_append, List.map_cons, List.map_nil]
    rw [List.nodup_append]
    refine ⟨hn1, List.nodup_singleton u, ?_⟩
    intro a ha hb
    simp only [List.mem_singleton] at hb
    subst hb
    exact (dictGet_eq_none_iff _ _).mp hu ha
  · simp only [List.map_append, List.map_cons, List.map_nil]
    rw [List.nodup_append]
    refine ⟨hn2, List.nodup_singleton t, ?_⟩
    intro a ha hb
    simp only [List.mem_singleton] at hb
    subst hb
    exact (dictGet_eq_none_iff _ _).mp ht ha
  · intro u' t'
    by_cases hu' : u' = u
    · subst hu'
      by_cases ht' : t' = t
      · subst ht'
        rw [dictGet_append_self hu, dictGet_append_self ht]
        simp
      · rw [dictGet_append_self hu, dictGet_append_other ht']
        constructor
        · intro hsome
          exact absurd (Option.some.inj hsome) (fun h => ht' h.symm)
        · intro hsome
          have hcontra := (hiff u' t').mpr hsome
          rw [hu] at hcontra
          exact Option.noConfusion hcontra
    · by_cases ht' : t' = t
      · subst ht'
        rw [dictGet_append_other hu', dictGet_append_self ht]
        constructor
        · intro hsome
          have hcontra := (hiff u' t').mp hsome
          rw [ht] at hcontra
          exact Option.noConfusion hcontra
        · intro hsome
          exact absurd (Option.some.inj hsome) (fun h => hu' h.symm)
      · rw [dictGet_append_other hu', dictGet_append_other ht']
        exact hiff u' t'

/-- Claim C6: topic-mode round trip.  Starting from maps that are mutual
inverses, if ensuring a sub-channel for contact `uid` returns thread `t`
(creating the forum topic on a first miss, with the platform handing back
a thread id not yet mapped), then looking the thread up in the
topic-to-user map yields `uid`, every subsequent ensure for `uid` returns
the same `t` with zero create calls and no state change, and the two maps
are again mutual inverses. -/
theorem C6_topic_round_trip :
    ∀ (ts : TopicState) (uid : Int) (r : Option Int) (t : Int) (ts' : TopicState) (n : Nat),
    TopicInv ts →
    (∀ t', r = some t' → dictGet ts.topicUser t' = none) →
    ensure_topic ts uid r = (some t, ts', n) →
    resolve_topic_user ts' t = some uid ∧
    (∀ r', ensure_topic ts' uid r' = (some t, ts', 0)) ∧
    TopicInv ts' := by
  intro ts uid r t ts' n hInv hfresh h
  unfold ensure_topic at h
  cases hu : dictGet ts.userTopic uid with
  | some t0 =>
    rw [hu] at h
    simp only [Prod.mk.injEq] at h
    obtain ⟨ht, hts, hn⟩ := h
    obtain rfl : t0 = t := Option.some.inj ht
    subst hts
    refine ⟨(hInv.2.2 uid t0).mp hu, ?_, hInv⟩
    intro r'
    unfold ensure_topic
    rw [hu]
  | none =>
    rw [hu] at h
    cases r with
    | none => simp at h
    | some t1 =>
      have hfr := hfresh t1 rfl
      simp only [Prod.mk.injEq] at h
      obtain ⟨ht, hts, hn⟩ := h
      obtain rfl : t1 = t := Option.some.inj ht
      subst hts
      rw [dictSet_of_none hu, dictSet_of_none hfr]
      refine ⟨dictGet_append_self hfr, ?_, topicInv_insert hInv hu hfr⟩
      intro r'
      unfold ensure_topic
      simp only [dictGet_append_self hu]

/-- Witness for C6: ensuring a sub-channel for contact 99 on empty maps
(the platform returning thread 5) makes the topic-to-user lookup of 5
yield 99. -/
theorem C6_witness : resolve_topic_user ⟨[(99, 5)], [(5, 99)]⟩ 5 = some 99 :=
  (C6_topic_round_trip ⟨[], []⟩ 99 (some 5) 5 ⟨[(99, 5)], [(5, 99)]⟩ 1
    ⟨List.nodup_nil, List.nodup_nil, fun u t => by
      rw [dictGet_nil, dictGet_nil]
      exact ⟨fun h => Option.noConfusion h, fun h => Option.noConfusion h⟩⟩
    (fun t' _ => rfl) rfl).1

/-! ## Supporting lemmas for blocklist canonicalisation -/

lemma dropWhile_pyWs_idem (l : List Char) :
    (l.dropWhile pyWs).dropWhile pyWs = l.dropWhile pyWs := by
  induction l with
  | nil => rfl
  | cons c cs ih =>
    rw [List.dropWhile_cons]
    by_cases h : pyWs c = true
    · rw [if_pos h]
      exact ih
    · rw [if_neg h, List.dropWhile_cons, if_neg h]

lemma pyWs_head_dropWhile : ∀ {l : List Char} {c : Char} {cs : List Char},
    l.dropWhile pyWs = c :: cs → pyWs c = false := by
  intro l
  induction l with
  | nil => intro c cs h; exact absurd h (by simp)
  | cons a l ih =>
    intro c cs h
    rw [List.dropWhile_cons] at h
    by_cases ha : pyWs a = true
    · rw [if_pos ha] at h
      exact ih h
    · rw [if_neg ha] at h
      obtain ⟨rfl, -⟩ := List.cons.inj h
      exact Bool.eq_false_iff.mpr ha

lemma dropWhile_rev_dropWhile (cs : List Char) :
    ((cs.dropWhile pyWs).reverse.dropWhile pyWs).reverse.dropWhile pyWs
      = ((cs.dropWhile pyWs).reverse.dropWhile pyWs).reverse := by
  cases hY : ((cs.dropWhile pyWs).reverse.dropWhile pyWs).reverse with
  | nil => rfl
  | cons c t =>
    have hsplit : (cs.dropWhile pyWs).reverse.takeWhile pyWs ++
        (cs.dropWhile pyWs).reverse.dropWhile pyWs = (cs.dropWhile pyWs).reverse :=
      List.takeWhile_append_dropWhile _ _
    have hX : cs.dropWhile pyWs =
        c :: (t ++ ((cs.dropWhile pyWs).reverse.takeWhile pyWs).reverse) := by
      conv_lhs => rw [← List.reverse_reverse (cs.dropWhile pyWs), ← hsplit]
      rw [List.reverse_append, hY, List.cons_append]
    have hc : pyWs c = false := pyWs_head_dropWhile hX
    rw [List.dropWhile_cons, if_neg (by simp [hc])]

lemma pyStripChars_idem (cs : List Char) :
    pyStripChars (pyStripChars cs) = pyStripChars cs := by
  have h1 : (pyStripChars cs).dropWhile pyWs = pyStripChars cs := dropWhile_rev_dropWhile cs
  have h2 : (pyStripChars cs).reverse.dropWhile pyWs = (pyStripChars cs).reverse := by
    have hrr : (pyStripChars cs).reverse = (cs.dropWhile pyWs).reverse.dropWhile pyWs :=
      List.reverse_reverse _
    rw [hrr]
    exact dropWhile_pyWs_idem _
  show (((pyStripChars cs).dropWhile pyWs).reverse.dropWhile pyWs).reverse = pyStripChars cs
  rw [h1, h2, List.reverse_reverse]

lemma pyStrip_idem (s : String) : pyStrip (pyStrip s) = pyStrip s :=
  congrArg String.mk (pyStripChars_idem s.toList)

/-- Strip a single entry's name, as the save's dedup pass does. -/
def stripEntry (e : BEntry) : BEntry := ⟨e.user_id, pyStrip e.name⟩

lemma dedupFirst_of_nodup : ∀ (l : List BEntry) (seen : List Int),
    (l.map BEntry.user_id).Nodup → (∀ e ∈ l, e.user_id ∉ seen) →
    dedupFirst l seen = l.map stripEntry := by
  intro l
  induction l with
  | nil => intro seen _ _; rfl
  | cons e rest ih =>
    intro seen hnd hseen
    have he : e.user_id ∉ seen := hseen e (List.mem_cons_self e rest)
    rw [List.map_cons, List.nodup_cons] at hnd
    simp only [dedupFirst, if_neg he, List.map_cons]
    congr 1
    apply ih (e.user_id :: seen) hnd.2
    intro e' he' hmem
    rcases List.mem_cons.mp hmem with heq | hs
    · exact hnd.1 (heq ▸ List.mem_map.mpr ⟨e', he', rfl⟩)
    · exact hseen e' (List.mem_cons_of_mem e he') hs

lemma dedupFirst_nodup_ids : ∀ (l : List BEntry) (seen : List Int),
    ((dedupFirst l seen).map BEntry.user_id).Nodup ∧
      ∀ e ∈ dedupFirst l seen, e.user_id ∉ seen := by
  intro l
  induction l with
  | nil =>
    intro seen
    exact ⟨List.nodup_nil, fun e he => absurd he (List.not_mem_nil e)⟩
  | cons a rest ih =>
    intro seen
    by_cases ha : a.user_id ∈ seen
    · simp only [dedupFirst, if_pos ha]
      exact ih seen
    · simp only [dedupFirst, if_neg ha]
      obtain ⟨ihn, ihs⟩ := ih (a.user_id :: seen)
      refine ⟨?_, ?_⟩
      · rw [List.map_cons, List.nodup_cons]
        refine ⟨?_, ihn⟩
        intro hmem
        obtain ⟨e, hemem, heid⟩ := List.mem_map.mp hmem
        exact ihs e hemem (heid ▸ List.mem_cons_self _ _)
      · intro e he
        rcases List.mem_cons.mp he with rfl | he'
        · exact ha
        · intro hs
          exact ihs e he' (List.mem_cons_of_mem _ hs)

lemma canon_perm_of_nodup {d : List BEntry} (hnd : (d.map BEntry.user_id).Nodup) :
    (canonBlocklist d).Perm (d.map stripEntry) := by
  unfold canonBlocklist
  rw [dedupFirst_of_nodup d [] hnd (fun e _ h => absurd h (List.not_mem_nil _))]
  exact List.perm_insertionSort _ _

lemma canon_ids_nodup (d : List BEntry) :
    ((canonBlocklist d).map BEntry.user_id).Nodup := by
  have hperm :=
    (List.perm_insertionSort (fun a b => a.user_id ≤ b.user_id)
      (dedupFirst d [])).map BEntry.user_id
  exact hperm.nodup_iff.mpr (dedupFirst_nodup_ids d []).1

lemma addScan_absent_of_not_mem {uid : Int} {name : String} :
    ∀ {l : List BEntry}, uid ∉ l.map BEntry.user_id → addScan uid name l = .absent := by
  intro l
  induction l with
  | nil => intro _; rfl
  | cons e rest ih =>
    intro h
    rw [List.map_cons, List.mem_cons] at h
    push_neg at h
    simp only [addScan, if_neg (fun heq : e.user_id = uid => h.1 heq.symm)]
    rw [ih h.2]

lemma addScan_noop {l : List BEntry} {uid : Int} {name nm : String}
    (hnd : (l.map BEntry.user_id).Nodup) (hm : (⟨uid, nm⟩ : BEntry) ∈ l)
    (hcond : name = "" ∨ nm = name) : addScan uid name l = .noop := by
  induction l with
  | nil => exact absurd hm (List.not_mem_nil _)
  | cons e rest ih =>
    rw [List.map_cons, List.nodup_cons] at hnd
    by_cases he : e.user_id = uid
    · have heq : e = ⟨uid, nm⟩ := by
        rcases List.mem_cons.mp hm with h | h
        · exact h.symm
        · exact absurd (he ▸ List.mem_map.mpr ⟨⟨uid, nm⟩, h, rfl⟩) hnd.1
      simp only [addScan, if_pos he]
      rw [if_neg]
      intro hand
      rcases hcond with hc | hc
      · exact hand.1 hc
      · rw [heq] at hand
        exact hand.2 hc
    · have hm' : (⟨uid, nm⟩ : BEntry) ∈ rest := by
        rcases List.mem_cons.mp hm with h | h
        · exact absurd (h ▸ rfl) (fun hh : e.user_id = uid => he hh)
        · exact h
      simp only [addScan, if_neg he]
      rw [ih hnd.2 hm']

lemma addScan_update_of_found {l : List BEntry} {uid : Int} {name nm : String}
    (hnd : (l.map BEntry.user_id).Nodup) (hm : (⟨uid, nm⟩ : BEntry) ∈ l)
    (h1 : name ≠ "") (h2 : nm ≠ name) : ∃ l', addScan uid name l = .update l' := by
  induction l with
  | nil => exact absurd hm (List.not_mem_nil _)
  | cons e rest ih =>
    rw [List.map_cons, List.nodup_cons] at hnd
    by_cases he : e.user_id = uid
    · have heq : e = ⟨uid, nm⟩ := by
        rcases List.mem_cons.mp hm with h | h
        · exact h.symm
        · exact absurd (he ▸ List.mem_map.mpr ⟨⟨uid, nm⟩, h, rfl⟩) hnd.1
      refine ⟨⟨uid, name⟩ :: rest, ?_⟩
      simp only [addScan, if_pos he]
      rw [if_pos]
      exact ⟨h1, by rw [heq]; exact h2⟩
    · have hm' : (⟨uid, nm⟩ : BEntry) ∈ rest := by
        rcases List.mem_cons.mp hm with h | h
        · exact absurd (h ▸ rfl) (fun hh : e.user_id = uid => he hh)
        · exact h
      obtain ⟨l', hl'⟩ := ih hnd.2 hm'
      refine ⟨e :: l', ?_⟩
      simp only [addScan, if_neg he]
      rw [hl']

lemma addScan_update_facts :
    ∀ {l l' : List BEntry} {uid : Int} {name : String},
    addScan uid name l = .update l' →
    l'.map BEntry.user_id = l.map BEntry.user_id ∧ (⟨uid, name⟩ : BEntry) ∈ l' ∧
      ∀ e ∈ l, e.user_id ≠ uid → e ∈ l' := by
  intro l
  induction l with
  | nil => intro l' uid name h; exact absurd h (by simp [addScan])
  | cons e rest ih =>
    intro l' uid name h
    by_cases he : e.user_id = uid
    · simp only [addScan, if_pos he] at h
      by_cases hc : name ≠ "" ∧ e.name ≠ name
      · rw [if_pos hc] at h
        obtain rfl : (⟨uid, name⟩ : BEntry) :: rest = l' := AddScan.update.inj h
        refine ⟨by rw [List.map_cons, List.map_cons, he], List.mem_cons_self _ _, ?_⟩
        intro e' he' hne
        rcases List.mem_cons.mp he' with rfl | h'
        · exact absurd he hne
        · exact List.mem_cons_of_mem _ h'
      · rw [if_neg hc] at h
        exact absurd h (by simp)
    · simp only [addScan, if_neg he] at h
      cases hrest : addScan uid name rest with
      | update l'' =>
        rw [hrest] at h
        obtain rfl : e :: l'' = l' := AddScan.update.inj h
        obtain ⟨hm, hmem, hothers⟩ := ih hrest
        refine ⟨by rw [List.map_cons, List.map_cons, hm], List.mem_cons_of_mem _ hmem, ?_⟩
        intro e' he' hne
        rcases List.mem_cons.mp he' with rfl | h'
        · exact List.mem_cons_self _ _
        · exact List.mem_cons_of_mem _ (hothers e' h' hne)
      | noop => rw [hrest] at h; exact absurd h (by simp)
      | absent => rw [hrest] at h; exact absurd h (by simp)

lemma save_blocklist_data_true (st : ConfigState) (d : List BEntry) :
    save_blocklist_data st d true =
      (true, ⟨some (canonBlocklist d), some ((canonBlocklist d).map BEntry.user_id),
        canonBlocklist d⟩) := rfl

/-- Counterexample to claim C5: two successive `add_to_blocklist` calls
with the same id and the same name return true (not false) the second
time when the name carries surrounding whitespace, because the stored
name is stripped on save while the comparison uses the raw incoming
name. -/
theorem C5_counterexample :
    (add_to_blocklist ⟨some [], some [], []⟩ 1 "A " true).1 = true ∧
    (add_to_blocklist (add_to_blocklist ⟨some [], some [], []⟩ 1 "A " true).2
      1 "A " true).1 = true := by
  refine ⟨by decide, by decide⟩

/-- Claim C5 as amended: with the cache loaded and ids unique,
`add_to_blocklist` (A) returns false and is a complete no-op when the id
is present and the incoming name is empty or identical to the stored one;
(B) when the id is present with a different non-empty name, returns true
and the resulting collection has the same size, contains the entry with
the stripped new name, and retains every other entry (modulo the save's
name re-strip); (C) when the id is absent, returns true and the resulting
collection has one more entry, containing the new stripped entry and all
previous entries; and (D) two successive calls with the same id and the
same name are idempotent — the second returns false and changes nothing —
provided the name carries no surrounding whitespace (strip-invariant),
which is the caveat the counterexample forces. -/
theorem C5_add_semantics :
    ∀ (st : ConfigState) (l : List BEntry) (uid : Int) (name nm : String) (writeOk : Bool),
    st.dataCache = some l → (l.map BEntry.user_id).Nodup →
    ((⟨uid, nm⟩ : BEntry) ∈ l → (name = "" ∨ nm = name) →
      add_to_blocklist st uid name writeOk = (false, st)) ∧
    ((⟨uid, nm⟩ : BEntry) ∈ l → name ≠ "" → nm ≠ name →
      (add_to_blocklist st uid name true).1 = true ∧
      ∃ m, (add_to_blocklist st uid name true).2.dataCache = some m ∧
        m.length = l.length ∧ (⟨uid, pyStrip name⟩ : BEntry) ∈ m ∧
        ∀ e ∈ l, e.user_id ≠ uid → stripEntry e ∈ m) ∧
    (uid ∉ l.map BEntry.user_id →
      (add_to_blocklist st uid name true).1 = true ∧
      ∃ m, (add_to_blocklist st uid name true).2.dataCache = some m ∧
        m.length = l.length + 1 ∧ (⟨uid, pyStrip name⟩ : BEntry) ∈ m ∧
        ∀ e ∈ l, stripEntry e ∈ m) ∧
    (uid ∉ l.map BEntry.user_id → pyStrip name = name →
      add_to_blocklist (add_to_blocklist st uid name true).2 uid name writeOk =
        (false, (add_to_blocklist st uid name true).2)) := by
  intro st l uid name nm writeOk hc hnd
  refine ⟨?_, ?_, ?_, ?_⟩
  · intro hm hcond
    have hscan := addScan_noop hnd hm hcond
    simp only [add_to_blocklist, load_blocklist_data, hc, hscan]
  · intro hm h1 h2
    obtain ⟨l', hscan⟩ := addScan_update_of_found hnd hm h1 h2
    obtain ⟨hids, hmem, hothers⟩ := addScan_update_facts hscan
    have hnd' : (l'.map BEntry.user_id).Nodup := hids ▸ hnd
    have hperm := canon_perm_of_nodup hnd'
    have hlen : l'.length = l.length := by
      have hlm := congrArg List.length hids
      simpa using hlm
    simp only [add_to_blocklist, load_blocklist_data, hc, hscan, save_blocklist_data_true]
    refine ⟨trivial, canonBlocklist l', rfl, ?_, ?_, ?_⟩
    · rw [hperm.length_eq, List.length_map, hlen]
    · rw [hperm.mem_iff]
      exact List.mem_map.mpr ⟨⟨uid, name⟩, hmem, rfl⟩
    · intro e he hne
      rw [hperm.mem_iff]
      exact List.mem_map.mpr ⟨e, hothers e he hne, rfl⟩
  · intro habs
    have hscan := @addScan_absent_of_not_mem uid name l habs
    have hpe : pyStrip (if name = "" then "" else pyStrip name) = pyStrip name := by
      by_cases h0 : name = ""
      · rw [if_pos h0, h0]
      · rw [if_neg h0, pyStrip_idem]
    have hnd' : ((l ++ [(⟨uid, if name = "" then "" else pyStrip name⟩ : BEntry)]).map
        BEntry.user_id).Nodup := by
      rw [List.map_append]
      rw [List.nodup_append]
      refine ⟨hnd, List.nodup_singleton _, ?_⟩
      intro a ha hb
      simp only [List.map_cons, List.map_nil, List.mem_singleton] at hb
      subst hb
      exact habs ha
    have hperm := canon_perm_of_nodup hnd'
    simp only [add_to_blocklist, load_blocklist_data, hc, hscan, save_blocklist_data_true]
    refine ⟨trivial, _, rfl, ?_, ?_, ?_⟩
    · rw [hperm.length_eq, List.length_map, List.length_append]
      rfl
    · rw [hperm.mem_iff, List.map_append]
      apply List.mem_append.mpr
      right
      simp only [List.map_cons, List.map_nil, List.mem_singleton]
      show (⟨uid, pyStrip name⟩ : BEntry) = stripEntry _
      rw [stripEntry, hpe]
    · intro e he
      rw [hperm.mem_iff, List.map_append]
      exact List.mem_append.mpr (Or.inl (List.mem_map.mpr ⟨e, he, rfl⟩))
  · intro habs hstrip
    have hscan := @addScan_absent_of_not_mem uid name l habs
    have heN : (if name = "" then "" else pyStrip name) = name := by
      by_cases h0 : name = ""
      · rw [if_pos h0, h0]
      · rw [if_neg h0, hstrip]
    have hnd1 : ((l ++ [(⟨uid, name⟩ : BEntry)]).map BEntry.user_id).Nodup := by
      rw [List.map_append, List.nodup_append]
      refine ⟨hnd, List.nodup_singleton _, ?_⟩
      intro a ha hb
      simp only [List.map_cons, List.map_nil, List.mem_singleton] at hb
      subst hb
      exact habs ha
    have hfirst : add_to_blocklist st uid name true =
        (true, ⟨some (canonBlocklist (l ++ [⟨uid, name⟩])),
                some ((canonBlocklist (l ++ [⟨uid, name⟩])).map BEntry.user_id),
                canonBlocklist (l ++ [⟨uid, name⟩])⟩) := by
      simp only [add_to_blocklist, load_blocklist_data, hc, hscan, heN,
        save_blocklist_data_true]
    rw [hfirst]
    have hndm := canon_ids_nodup (l ++ [⟨uid, name⟩])
    have hmem : (⟨uid, name⟩ : BEntry) ∈ canonBlocklist (l ++ [⟨uid, name⟩]) := by
      rw [(canon_perm_of_nodup hnd1).mem_iff, List.map_append]
      apply List.mem_append.mpr
      right
      simp only [List.map_cons, List.map_nil, List.mem_singleton]
      show (⟨uid, name⟩ : BEntry) = stripEntry _
      rw [stripEntry]
      exact congrArg _ hstrip.symm
    have hscan2 := addScan_noop hndm hmem (Or.inr rfl)
    simp only [add_to_blocklist, load_blocklist_data, hscan2]

/-- Witness for C5: the no-op branch and the idempotence branch applied at
concrete inputs. -/
theorem C5_witness :
    add_to_blocklist ⟨some [⟨1, "A"⟩], some [1], [⟨1, "A"⟩]⟩ 1 "A" true =
      (false, ⟨some [⟨1, "A"⟩], some [1], [⟨1, "A"⟩]⟩) ∧
    add_to_blocklist (add_to_blocklist ⟨some [], some [], []⟩ 2 "B" true).2 2 "B" true =
      (false, (add_to_blocklist ⟨some [], some [], []⟩ 2 "B" true).2) :=
  ⟨(C5_add_semantics ⟨some [⟨1, "A"⟩], some [1], [⟨1, "A"⟩]⟩ [⟨1, "A"⟩] 1 "A" "A" true
      rfl (by decide)).1 (by decide) (Or.inr rfl),
   (C5_add_semantics ⟨some [], some [], []⟩ [] 2 "B" "" true rfl (by decide)).2.2.2
      (by decide) (by decide)⟩
